import Mathlib

set_option exponentiation.threshold 1100

/-!
Verification of the inventory forecast endpoint of the Synapsis LIMS backend.

The code under scrutiny is `forecast` in `src/main.py`:

    @app.post("/inventory/forecast")
    def forecast(req: ForecastRequest) -> ForecastResponse:
        # Simple moving average + safety stock (1 stddev)
        data = req.last_30d_consumption or [random.randint(0, 5) for _ in range(30)]
        avg = sum(data) / len(data)
        variance = sum((x - avg) ** 2 for x in data) / len(data)
        stddev = math.sqrt(variance)
        safety = max(2, int(round(stddev)))
        lead_time_days = 7
        reorder_point = int(round(avg * lead_time_days + safety))
        reorder_qty = int(max(5, round(avg * 14)))
        return ForecastResponse(sku=req.sku, recommended_reorder_qty=reorder_qty,
                                safety_stock=safety, reorder_point=reorder_point)

with request/response schemas from `src/schemas.py`:

    class ForecastRequest(BaseModel):
        sku: str
        last_30d_consumption: List[int] = Field(default_factory=list)

    class ForecastResponse(BaseModel):
        sku: str
        recommended_reorder_qty: int
        safety_stock: int
        reorder_point: int

Embedding choices:
* Arithmetic is embedded over `ℚ` (the float computations are idealised
  as exact rational arithmetic); `math.sqrt` composed with Python `round`
  is embedded as the computable `sqrtRound` on `ℚ`, proved below to agree
  with round-half-to-even of the exact real square root.
* Python `round` with no digits argument is round-half-to-even, embedded
  as `pyRound` on `ℚ` and `roundHalfEven` on `ℝ`, proved to agree on
  rational inputs.
* The call `random.randint(0, 5)` repeated 30 times is embedded by
  passing the drawn sample as an explicit argument `sample : List ℤ`;
  `SampleOK` characterises exactly the lists the generator can produce.
* Python raising an exception is embedded as `Option.none`; `forecast`
  returns `none` precisely when the data it would average is empty
  (the `ZeroDivisionError` case), and validation errors do not exist in
  the source.  The float arithmetic is exact in this model, which is
  faithful for the formulas and the concrete scenarios but erases the
  `OverflowError` CPython raises when a value leaves double range;
  `forecastChecked` below refines `forecast` with that error path
  retained, and the totality claim is settled against it.
-/

namespace Synapsis

/-- Python `round` with no second argument on a rational value:
round half to even (banker's rounding). -/
def pyRound (q : ℚ) : ℤ :=
  if q - ⌊q⌋ < 1 / 2 then ⌊q⌋
  else if 1 / 2 < q - ⌊q⌋ then ⌊q⌋ + 1
  else if ⌊q⌋ % 2 = 0 then ⌊q⌋ else ⌊q⌋ + 1

/-- Computable embedding of `int(round(math.sqrt(v)))` for a rational
`v ≥ 0`: the round-half-to-even of the exact real square root of `v`,
computed by comparing `v` with `(k + 1/2) ^ 2 = k ^ 2 + k + 1/4` where
`k = ⌊√v⌋`.  `sqrtRound_eq_roundHalfEven_sqrt` below proves the agreement
with the real-valued specification. -/
def sqrtRound (v : ℚ) : ℤ :=
  if v < (Nat.sqrt ⌊v⌋.toNat : ℚ) ^ 2 + (Nat.sqrt ⌊v⌋.toNat : ℚ) + 1 / 4 then
    (Nat.sqrt ⌊v⌋.toNat : ℤ)
  else if (Nat.sqrt ⌊v⌋.toNat : ℚ) ^ 2 + (Nat.sqrt ⌊v⌋.toNat : ℚ) + 1 / 4 < v then
    (Nat.sqrt ⌊v⌋.toNat : ℤ) + 1
  else if Nat.sqrt ⌊v⌋.toNat % 2 = 0 then (Nat.sqrt ⌊v⌋.toNat : ℤ)
  else (Nat.sqrt ⌊v⌋.toNat : ℤ) + 1

/-- `ForecastRequest` from `src/schemas.py`: Pydantic coerces
`last_30d_consumption` to a list of (arbitrary-precision) integers,
so histories are `List ℤ`; non-finite floats are rejected before the
handler runs and cannot appear here. -/
structure ForecastRequest where
  sku : String
  last_30d_consumption : List ℤ
deriving DecidableEq, Repr

/-- `ForecastResponse` from `src/schemas.py`. -/
structure ForecastResponse where
  sku : String
  recommended_reorder_qty : ℤ
  safety_stock : ℤ
  reorder_point : ℤ
deriving DecidableEq, Repr

/-- `avg = sum(data) / len(data)` from `src/main.py` line 344. -/
def mean (data : List ℤ) : ℚ := (data.sum : ℚ) / (data.length : ℚ)

/-- `variance = sum((x - avg) ** 2 for x in data) / len(data)` from
`src/main.py` line 345. -/
def popVariance (data : List ℤ) : ℚ :=
  ((data.map fun (x : ℤ) => ((x : ℚ) - mean data) ^ 2).sum) / (data.length : ℚ)

/-- `safety = max(2, int(round(stddev)))` with
`stddev = math.sqrt(variance)`, from `src/main.py` lines 346-347. -/
def safetyStock (data : List ℤ) : ℤ := max 2 (sqrtRound (popVariance data))

/-- Lines 344-351 of `src/main.py` applied to the data actually averaged
(the request history, or the random sample when the history is empty);
`lead_time_days = 7` is inlined. -/
def forecastCore (sku : String) (data : List ℤ) : ForecastResponse :=
  { sku := sku
    recommended_reorder_qty := max 5 (pyRound (mean data * 14))
    safety_stock := safetyStock data
    reorder_point := pyRound (mean data * 7 + (safetyStock data : ℚ)) }

/-- The `forecast` handler, `src/main.py` lines 341-351.  The value the
Python expression `[random.randint(0, 5) for _ in range(30)]` evaluates
to is passed as the explicit argument `sample`; Python `or` selects
`sample` exactly when the history is the empty list.  A `none` result
models an uncaught exception (division by zero on empty data); the
handler has no validation and raises nothing else. -/
def forecast (req : ForecastRequest) (sample : List ℤ) : Option ForecastResponse :=
  let data := if req.last_30d_consumption = [] then sample else req.last_30d_consumption
  if data = [] then none else some (forecastCore req.sku data)

/-- Exactly the lists that `[random.randint(0, 5) for _ in range(30)]`
can produce: 30 integers, each between 0 and 5 inclusive. -/
def SampleOK (s : List ℤ) : Prop := s.length = 30 ∧ ∀ x ∈ s, 0 ≤ x ∧ x ≤ 5

instance : DecidablePred SampleOK := fun s => by
  unfold SampleOK; infer_instance

/-! ### Float-overflow refinement

`forecast` idealises the handler's float arithmetic as exact rational
arithmetic; that erases one behaviour of the real program: CPython
raises `OverflowError` when a value leaves double range.  The sites in
the handler are the int/int true division `sum(data) / len(data)`
(line 344, raises when the quotient exceeds double range), the
conversion of each `x` to float and the float power `(x - avg) ** 2`
(line 345), and `round` applied to an infinite float produced by
earlier silent overflow of float sums and products (lines 347-350).
`forecastChecked` refines `forecast` with this error path.  The
overflow boundary is idealised as the exact comparison
`|value| < 2 ^ 1024`; the true boundary differs from it only within one
unit in the last place of the largest double, and every concrete value
appearing in the theorems below is astronomically far from it. -/

/-- A finite double must be strictly smaller than `2 ^ 1024` in
magnitude. -/
def floatMax : ℚ := 2 ^ 1024

/-- The exceptions the handler can raise: `ZeroDivisionError` (empty
data at line 344) and `OverflowError` (float range left). -/
inductive PyError where
  | zeroDivision : PyError
  | overflow : PyError
deriving DecidableEq, Repr

/-- No float intermediate of the handler leaves double range: the mean
(line 344), each history value converted to float and its squared
deviation (line 345), the sum of squared deviations (whose overflow
would propagate `inf` into `round` at line 347), and the two rounded
expressions (lines 349-350). -/
def NoOverflow (data : List ℤ) : Prop :=
  |mean data| < floatMax ∧
  (∀ x ∈ data, |(x : ℚ)| < floatMax ∧ |((x : ℚ) - mean data) ^ 2| < floatMax) ∧
  |(data.map fun (x : ℤ) => ((x : ℚ) - mean data) ^ 2).sum| < floatMax ∧
  |mean data * 7 + (safetyStock data : ℚ)| < floatMax ∧
  |mean data * 14| < floatMax

instance : DecidablePred NoOverflow := fun d => by
  unfold NoOverflow; infer_instance

/-- The `forecast` handler with the float-overflow error path retained:
as `forecast`, but raising (`Except.error`) when a float intermediate
leaves double range. -/
def forecastChecked (req : ForecastRequest) (sample : List ℤ) :
    Except PyError ForecastResponse :=
  let data := if req.last_30d_consumption = [] then sample else req.last_30d_consumption
  if data = [] then Except.error PyError.zeroDivision
  else if NoOverflow data then Except.ok (forecastCore req.sku data)
  else Except.error PyError.overflow

/-! ### Specification-side definitions (spec.md section 4.1)

These restate the forecast formulas in the words of the specification,
with `stddev` the exact real square root of the population variance;
claim C5 compares them with the code embedding above. -/

/-- Round half to even on a real number.  The specification leaves the
tie-breaking rule as an implementation choice to be documented; this
development fixes it to round-half-to-even, the rule of the source
language's default `round`. -/
noncomputable def roundHalfEven (x : ℝ) : ℤ :=
  if x - ⌊x⌋ < 1 / 2 then ⌊x⌋
  else if 1 / 2 < x - ⌊x⌋ then ⌊x⌋ + 1
  else if ⌊x⌋ % 2 = 0 then ⌊x⌋ else ⌊x⌋ + 1

/-- Spec 4.1: compute arithmetic mean `avg` of `history`. -/
def specMean (history : List ℤ) : ℚ :=
  (history.sum : ℚ) / (history.length : ℚ)

/-- Spec 4.1: population variance — mean of squared deviations from
`avg`. -/
def specVariance (history : List ℤ) : ℚ :=
  ((history.map fun (x : ℤ) => ((x : ℚ) - specMean history) ^ 2).sum) / (history.length : ℚ)

/-- Spec 4.1: `stddev = sqrt(variance)`, as an exact real number. -/
noncomputable def specStddev (history : List ℤ) : ℝ :=
  Real.sqrt (specVariance history)

/-- Spec 4.1: `safety_stock = max(2, round(stddev))`. -/
noncomputable def specSafetyStock (history : List ℤ) : ℤ :=
  max 2 (roundHalfEven (specStddev history))

/-- The `ForecastResult` of spec 4.1 with `lead_time_days = 7`:
`reorder_point = round(avg * lead_time_days + safety_stock)` and
`reorder_qty = max(5, round(avg * 14))`. -/
noncomputable def forecastSpec (sku : String) (history : List ℤ) : ForecastResponse :=
  { sku := sku
    recommended_reorder_qty := max 5 (roundHalfEven ((specMean history : ℝ) * 14))
    safety_stock := specSafetyStock history
    reorder_point := roundHalfEven ((specMean history : ℝ) * 7 + (specSafetyStock history : ℝ)) }

/-! ### Evaluation lemmas

`Rat` arithmetic and `Nat.sqrt` are defined by well-founded recursion, so
the kernel cannot evaluate `forecast` on concrete inputs by `decide`; the
lemmas below compute it instead. -/

theorem pyRound_intCast (z : ℤ) : pyRound (z : ℚ) = z := by
  norm_num [pyRound, Int.floor_intCast]

theorem pyRound_nonneg {q : ℚ} (h : 0 ≤ q) : 0 ≤ pyRound q := by
  have hf : 0 ≤ ⌊q⌋ := Int.floor_nonneg.mpr h
  unfold pyRound
  split_ifs <;> omega

theorem sqrtRound_zero : sqrtRound 0 = 0 := by
  norm_num [sqrtRound]

theorem mean_replicate (n : ℕ) (hn : n ≠ 0) (c : ℤ) :
    mean (List.replicate n c) = (c : ℚ) := by
  have hn' : (n : ℚ) ≠ 0 := Nat.cast_ne_zero.mpr hn
  rw [mean, List.sum_replicate, List.length_replicate]
  field_simp

theorem popVariance_replicate (n : ℕ) (hn : n ≠ 0) (c : ℤ) :
    popVariance (List.replicate n c) = 0 := by
  rw [popVariance, mean_replicate n hn c, List.map_replicate]
  simp

theorem safetyStock_replicate (n : ℕ) (hn : n ≠ 0) (c : ℤ) :
    safetyStock (List.replicate n c) = 2 := by
  rw [safetyStock, popVariance_replicate n hn c, sqrtRound_zero]
  decide

theorem forecastCore_replicate (sku : String) (n : ℕ) (hn : n ≠ 0) (c : ℤ) :
    forecastCore sku (List.replicate n c) =
      { sku := sku
        recommended_reorder_qty := max 5 (14 * c)
        safety_stock := 2
        reorder_point := 7 * c + 2 } := by
  rw [forecastCore, mean_replicate n hn c, safetyStock_replicate n hn c]
  have h14 : (c : ℚ) * 14 = ((14 * c : ℤ) : ℚ) := by push_cast; ring
  have h7 : (c : ℚ) * 7 + ((2 : ℤ) : ℚ) = ((7 * c + 2 : ℤ) : ℚ) := by push_cast; ring
  rw [h14, h7, pyRound_intCast, pyRound_intCast]

theorem forecast_nonempty (sku : String) (h s : List ℤ) (hh : h ≠ []) :
    forecast ⟨sku, h⟩ s = some (forecastCore sku h) := by
  simp [forecast, hh]

theorem forecast_empty_hist (sku : String) (s : List ℤ) (hs : s ≠ []) :
    forecast ⟨sku, []⟩ s = some (forecastCore sku s) := by
  simp [forecast, hs]

theorem mean_nonneg {data : List ℤ} (h : ∀ x ∈ data, 0 ≤ x) : 0 ≤ mean data := by
  apply div_nonneg
  · exact_mod_cast List.sum_nonneg h
  · exact Nat.cast_nonneg _

theorem popVariance_nonneg (data : List ℤ) : 0 ≤ popVariance data := by
  apply div_nonneg
  · apply List.sum_nonneg
    intro y hy
    obtain ⟨x, _, rfl⟩ := List.mem_map.mp hy
    positivity
  · exact Nat.cast_nonneg _

theorem safetyStock_ge_two (data : List ℤ) : 2 ≤ safetyStock data :=
  le_max_left _ _

theorem forecastCore_nonneg (sku : String) (data : List ℤ) (h : ∀ x ∈ data, 0 ≤ x) :
    0 ≤ (forecastCore sku data).recommended_reorder_qty ∧
      2 ≤ (forecastCore sku data).safety_stock ∧
      0 ≤ (forecastCore sku data).reorder_point := by
  have hm : 0 ≤ mean data := mean_nonneg h
  have hsafe : (2 : ℤ) ≤ safetyStock data := safetyStock_ge_two data
  simp only [forecastCore]
  refine ⟨le_trans (by norm_num) (le_max_left 5 _), hsafe, ?_⟩
  apply pyRound_nonneg
  have hsq : (0 : ℚ) ≤ (safetyStock data : ℚ) := by exact_mod_cast le_trans (by norm_num) hsafe
  have hm7 : (0 : ℚ) ≤ mean data * 7 := mul_nonneg hm (by norm_num)
  linarith

/-! ### The claims -/

/-- C1 counterexample: called with an empty history (and the random
substitute sample `[3, 3, ..., 3]`, which `random.randint(0, 5)` can
produce), `forecast` does not fail: it returns a forecast result, so the
claimed `InvalidInput` failure does not happen. -/
theorem C1_empty_history_returns_result :
    SampleOK (List.replicate 30 3) ∧
      forecast ⟨"SKU-1", []⟩ (List.replicate 30 3) =
        some { sku := "SKU-1", recommended_reorder_qty := 42
               safety_stock := 2, reorder_point := 23 } := by
  refine ⟨by decide, ?_⟩
  rw [forecast_empty_hist _ _ (by decide), forecastCore_replicate _ 30 (by decide) 3]
  decide

/-- C1 amended: when `forecast` is called with an empty consumption
history, it does not fail; it substitutes the 30-element pseudorandom
sample (each value drawn from 0..5) and returns a forecast result
computed from that sample. -/
theorem C1_empty_history_uses_sample (sku : String) (s : List ℤ)
    (hs : SampleOK s) : ∃ r, forecast ⟨sku, []⟩ s = some r := by
  have hne : s ≠ [] := by
    intro he
    rw [he] at hs
    exact absurd hs.1 (by decide)
  exact ⟨_, forecast_empty_hist sku s hne⟩

/-- C1 witness: the amended statement at a concrete sample. -/
theorem C1_witness : ∃ r, forecast ⟨"SKU-1", []⟩ (List.replicate 30 0) = some r :=
  C1_empty_history_uses_sample "SKU-1" (List.replicate 30 0) (by decide)

/-- C2 counterexample: two calls with the identical input (`sku="SKU-1"`,
empty history) in which the hidden random generator draws two different
substitute samples — both samples ones `random.randint(0, 5)` can
produce — return different outputs, so `forecast` is not deterministic
on the empty history. -/
theorem C2_random_fallback_differs :
    SampleOK (List.replicate 30 0) ∧ SampleOK (List.replicate 30 5) ∧
      forecast ⟨"SKU-1", []⟩ (List.replicate 30 0) ≠
        forecast ⟨"SKU-1", []⟩ (List.replicate 30 5) := by
  refine ⟨by decide, by decide, ?_⟩
  rw [forecast_empty_hist _ _ (by decide), forecast_empty_hist _ _ (by decide),
    forecastCore_replicate _ 30 (by decide) 0, forecastCore_replicate _ 30 (by decide) 5]
  decide

/-- C2 amended: for every request with a non-empty consumption history,
`forecast` is deterministic — its output does not depend on the state of
the random generator, so two calls with identical input yield identical
output.  (On the empty history the output depends on the random draw,
per the counterexample.) -/
theorem C2_deterministic_on_nonempty (req : ForecastRequest) (s₁ s₂ : List ℤ)
    (h : req.last_30d_consumption ≠ []) :
    forecast req s₁ = forecast req s₂ := by
  obtain ⟨sku, hist⟩ := req
  rw [forecast_nonempty sku hist s₁ h, forecast_nonempty sku hist s₂ h]

/-- C2 witness: the amended statement at a concrete non-empty history and
two different random-generator states. -/
theorem C2_witness :
    forecast ⟨"SKU-1", [4, 4]⟩ [] = forecast ⟨"SKU-1", [4, 4]⟩ (List.replicate 30 1) :=
  C2_deterministic_on_nonempty ⟨"SKU-1", [4, 4]⟩ [] (List.replicate 30 1) (by decide)

/-- C3 counterexample: the operation accepts the history `[-10]` (the
schema allows arbitrary integers) and returns `reorder_point = -68 < 0`,
so the claimed non-negativity over every accepted input fails. -/
theorem C3_negative_reorder_point :
    forecast ⟨"SKU-1", [-10]⟩ [] =
        some { sku := "SKU-1", recommended_reorder_qty := 5
               safety_stock := 2, reorder_point := -68 } ∧
      ({ sku := "SKU-1", recommended_reorder_qty := 5
         safety_stock := 2, reorder_point := -68 } : ForecastResponse).reorder_point < 0 := by
  refine ⟨?_, by decide⟩
  rw [forecast_nonempty _ _ _ (by decide),
    show ([-10] : List ℤ) = List.replicate 1 (-10) from rfl,
    forecastCore_replicate _ 1 (by decide) (-10)]
  decide

/-- C3 amended: whenever every value of the consumption history is
non-negative (and the substitute sample is one the generator can draw),
every result `forecast` returns has non-negative
`recommended_reorder_qty`, `safety_stock ≥ 2` and non-negative
`reorder_point`; all three fields are integers by construction. -/
theorem C3_nonneg_for_nonneg_history (req : ForecastRequest) (s : List ℤ)
    (r : ForecastResponse) (hhist : ∀ x ∈ req.last_30d_consumption, 0 ≤ x)
    (hs : SampleOK s) (hr : forecast req s = some r) :
    0 ≤ r.recommended_reorder_qty ∧ 2 ≤ r.safety_stock ∧ 0 ≤ r.reorder_point := by
  obtain ⟨sku, hist⟩ := req
  by_cases hh : hist = []
  · subst hh
    have hne : s ≠ [] := by
      intro he
      rw [he] at hs
      exact absurd hs.1 (by decide)
    rw [forecast_empty_hist sku s hne] at hr
    obtain rfl := Option.some.inj hr
    exact forecastCore_nonneg sku s fun x hx => (hs.2 x hx).1
  · rw [forecast_nonempty sku hist s hh] at hr
    obtain rfl := Option.some.inj hr
    exact forecastCore_nonneg sku hist hhist

/-- C3 witness: the amended statement at a concrete request. -/
theorem C3_witness :
    0 ≤ (ForecastResponse.mk "W" 42 2 23).recommended_reorder_qty ∧
      2 ≤ (ForecastResponse.mk "W" 42 2 23).safety_stock ∧
      0 ≤ (ForecastResponse.mk "W" 42 2 23).reorder_point :=
  C3_nonneg_for_nonneg_history ⟨"W", List.replicate 2 3⟩ (List.replicate 30 1)
    (ForecastResponse.mk "W" 42 2 23) (by decide) (by decide)
    (by rw [forecast_nonempty _ _ _ (by decide), forecastCore_replicate _ 2 (by decide) 3]
        decide)

/-- C4 counterexample: the history `[-1]` contains a negative quantity,
yet `forecast` does not fail with `InvalidInput`: it processes the value
and returns a result. -/
theorem C4_negative_value_not_rejected :
    forecast ⟨"SKU-1", [-1]⟩ [] =
      some { sku := "SKU-1", recommended_reorder_qty := 5
             safety_stock := 2, reorder_point := -5 } := by
  rw [forecast_nonempty _ _ _ (by decide),
    show ([-1] : List ℤ) = List.replicate 1 (-1) from rfl,
    forecastCore_replicate _ 1 (by decide) (-1)]
  decide

/-- C4 amended: `forecast` performs no validation of the history values:
a non-empty history containing a negative quantity is processed normally
and a result is returned (no error).  Non-finite numbers cannot reach
the handler at all, because the request schema types the history as a
list of integers and rejects anything else before the handler runs. -/
theorem C4_no_validation (sku : String) (hist s : List ℤ)
    (hne : hist ≠ []) (_hneg : ∃ x ∈ hist, x < 0) :
    ∃ r, forecast ⟨sku, hist⟩ s = some r :=
  ⟨_, forecast_nonempty sku hist s hne⟩

/-- C4 witness: the amended statement at a concrete negative history. -/
theorem C4_witness : ∃ r, forecast ⟨"SKU-1", [-7]⟩ [] = some r :=
  C4_no_validation "SKU-1" [-7] [] (by decide) ⟨-7, by decide, by decide⟩

/-- C6: for every non-empty history of non-negative integers, the
returned `safety_stock` is at least 2. -/
theorem C6_safety_stock_ge_two (sku : String) (hist s : List ℤ)
    (r : ForecastResponse) (hne : hist ≠ []) (_hnn : ∀ x ∈ hist, 0 ≤ x)
    (hr : forecast ⟨sku, hist⟩ s = some r) : 2 ≤ r.safety_stock := by
  rw [forecast_nonempty sku hist s hne] at hr
  obtain rfl := Option.some.inj hr
  exact safetyStock_ge_two hist

/-- C6 witness: the statement at a concrete history. -/
theorem C6_witness : (2 : ℤ) ≤ (ForecastResponse.mk "W" 28 2 16).safety_stock :=
  C6_safety_stock_ge_two "W" (List.replicate 3 2) [] (ForecastResponse.mk "W" 28 2 16)
    (by decide) (by decide)
    (by rw [forecast_nonempty _ _ _ (by decide), forecastCore_replicate _ 3 (by decide) 2]
        decide)

/-- C7: for every non-empty history of integers, the returned
`recommended_reorder_qty` is at least 5. -/
theorem C7_reorder_qty_ge_five (sku : String) (hist s : List ℤ)
    (r : ForecastResponse) (hne : hist ≠ [])
    (hr : forecast ⟨sku, hist⟩ s = some r) : 5 ≤ r.recommended_reorder_qty := by
  rw [forecast_nonempty sku hist s hne] at hr
  obtain rfl := Option.some.inj hr
  simp only [forecastCore]
  exact le_max_left 5 _

/-- C7 witness: the statement at a concrete history with negative
values. -/
theorem C7_witness : (5 : ℤ) ≤ (ForecastResponse.mk "W" 5 2 (-5)).recommended_reorder_qty :=
  C7_reorder_qty_ge_five "W" (List.replicate 1 (-1)) [] (ForecastResponse.mk "W" 5 2 (-5))
    (by decide)
    (by rw [forecast_nonempty _ _ _ (by decide), forecastCore_replicate _ 1 (by decide) (-1)]
        decide)

/-- C8: for the history of 30 zeros, `forecast` returns
`safety_stock = 2`, `reorder_point = 2`, `recommended_reorder_qty = 5`. -/
theorem C8_thirty_zeros :
    forecast ⟨"SKU-1", List.replicate 30 0⟩ [] =
      some { sku := "SKU-1", recommended_reorder_qty := 5
             safety_stock := 2, reorder_point := 2 } := by
  rw [forecast_nonempty _ _ _ (by decide), forecastCore_replicate _ 30 (by decide) 0]
  decide

/-- C9: there is a non-empty history of non-negative integers for which
the returned `reorder_point` is strictly smaller than the returned
`recommended_reorder_qty` (so `reorder_point ≥ reorder_qty` does not
hold in general). -/
theorem C9_reorder_point_can_be_below_qty :
    ∃ hist : List ℤ, hist ≠ [] ∧ (∀ x ∈ hist, 0 ≤ x) ∧
      ∃ r, forecast ⟨"SKU-1", hist⟩ [] = some r ∧
        r.reorder_point < r.recommended_reorder_qty := by
  refine ⟨[1], by decide, by decide, forecastCore "SKU-1" [1],
    forecast_nonempty _ _ _ (by decide), ?_⟩
  rw [show ([1] : List ℤ) = List.replicate 1 1 from rfl,
    forecastCore_replicate _ 1 (by decide) 1]
  decide

/-! ### Lemmas for the float-overflow refinement -/

theorem forecastChecked_ok (sku : String) (h s : List ℤ) (hh : h ≠ [])
    (hok : NoOverflow h) :
    forecastChecked ⟨sku, h⟩ s = Except.ok (forecastCore sku h) := by
  simp [forecastChecked, hh, hok]

theorem forecastChecked_of_overflow (sku : String) (h s : List ℤ) (hh : h ≠ [])
    (hov : ¬ NoOverflow h) :
    forecastChecked ⟨sku, h⟩ s = Except.error PyError.overflow := by
  simp [forecastChecked, hh, hov]

theorem list_abs_sum_le (l : List ℤ) :
    |(l.sum : ℚ)| ≤ (l.map fun x : ℤ => |(x : ℚ)|).sum := by
  induction l with
  | nil => simp
  | cons a t ih =>
    simp only [List.sum_cons, List.map_cons, Int.cast_add]
    have h3 := abs_add ((a : ℚ)) (((t.sum : ℤ) : ℚ))
    linarith [ih, h3]

theorem abs_mean_le (data : List ℤ) (B : ℚ) (hB : 0 ≤ B)
    (h : ∀ x ∈ data, |(x : ℚ)| ≤ B) : |mean data| ≤ B := by
  rcases eq_or_ne data [] with rfl | hne
  · simp [mean, hB]
  · have hlen : 0 < (data.length : ℚ) := by
      have h0 : 0 < data.length := List.length_pos.mpr hne
      exact_mod_cast h0
    rw [mean, abs_div, abs_of_nonneg hlen.le, div_le_iff₀ hlen]
    calc |(data.sum : ℚ)| ≤ (data.map fun x : ℤ => |(x : ℚ)|).sum := list_abs_sum_le data
      _ ≤ (data.map fun x : ℤ => |(x : ℚ)|).length • B :=
          List.sum_le_card_nsmul _ _ (by
            intro b hb
            obtain ⟨x, hx, rfl⟩ := List.mem_map.mp hb
            exact h x hx)
      _ = (data.length : ℚ) * B := by rw [List.length_map, nsmul_eq_mul]
      _ = B * (data.length : ℚ) := mul_comm _ _

theorem popVariance_le (data : List ℤ) (M : ℚ) (hM : 0 ≤ M)
    (h : ∀ x ∈ data, ((x : ℚ) - mean data) ^ 2 ≤ M) : popVariance data ≤ M := by
  rcases eq_or_ne data [] with rfl | hne
  · simp [popVariance, hM]
  · have hlen : 0 < (data.length : ℚ) := by
      have h0 : 0 < data.length := List.length_pos.mpr hne
      exact_mod_cast h0
    rw [popVariance, div_le_iff₀ hlen]
    calc (data.map fun x : ℤ => ((x : ℚ) - mean data) ^ 2).sum
        ≤ (data.map fun x : ℤ => ((x : ℚ) - mean data) ^ 2).length • M :=
          List.sum_le_card_nsmul _ _ (by
            intro b hb
            obtain ⟨x, hx, rfl⟩ := List.mem_map.mp hb
            exact h x hx)
      _ = (data.length : ℚ) * M := by rw [List.length_map, nsmul_eq_mul]
      _ = M * (data.length : ℚ) := mul_comm _ _

theorem sq_natSqrt_floor_le (v : ℚ) (hv : 0 ≤ v) :
    ((Nat.sqrt ⌊v⌋.toNat : ℚ)) ^ 2 ≤ v := by
  have hfv : (0 : ℤ) ≤ ⌊v⌋ := Int.floor_nonneg.mpr hv
  have htn : ((⌊v⌋.toNat : ℤ)) = ⌊v⌋ := Int.toNat_of_nonneg hfv
  have h1 : Nat.sqrt ⌊v⌋.toNat ^ 2 ≤ ⌊v⌋.toNat := Nat.sqrt_le' _
  have h2 : ((⌊v⌋ : ℚ)) ≤ v := Int.floor_le v
  calc ((Nat.sqrt ⌊v⌋.toNat : ℚ)) ^ 2 = ((Nat.sqrt ⌊v⌋.toNat ^ 2 : ℕ) : ℚ) := by push_cast; ring
    _ ≤ ((⌊v⌋.toNat : ℕ) : ℚ) := by exact_mod_cast h1
    _ = ((⌊v⌋ : ℤ) : ℚ) := by exact_mod_cast htn
    _ ≤ v := h2

theorem sqrtRound_le_of_le_sq (v : ℚ) (hv : 0 ≤ v) (C : ℕ) (hC : v ≤ (C : ℚ) ^ 2) :
    sqrtRound v ≤ (C : ℤ) + 1 := by
  have hk2 : ((Nat.sqrt ⌊v⌋.toNat : ℚ)) ^ 2 ≤ v := sq_natSqrt_floor_le v hv
  have hkC : Nat.sqrt ⌊v⌋.toNat ≤ C := by
    by_contra hlt
    push_neg at hlt
    have hCk : ((C : ℚ)) < ((Nat.sqrt ⌊v⌋.toNat : ℚ)) := by exact_mod_cast hlt
    have h0 : (0 : ℚ) ≤ ((C : ℚ)) := Nat.cast_nonneg _
    nlinarith [hk2, hC, hCk, h0]
  unfold sqrtRound
  split_ifs <;> omega

/-- C10 counterexample: the handler is not total.  On the history
`[10 ^ 400]` — accepted by the schema, whose integers are unbounded —
the division `sum(data) / len(data)` at line 344 must produce a float
of magnitude `10 ^ 400 > 2 ^ 1024`, so CPython raises `OverflowError`;
the checked embedding returns the overflow error, not a result. -/
theorem C10_overflow_on_huge_history :
    forecastChecked ⟨"SKU-1", [10 ^ 400]⟩ [] = Except.error PyError.overflow := by
  apply forecastChecked_of_overflow _ _ _ (by decide)
  intro hno
  have h1 := hno.1
  rw [show ([10 ^ 400] : List ℤ) = List.replicate 1 (10 ^ 400) from rfl,
    mean_replicate 1 (by decide) _] at h1
  simp only [floatMax] at h1
  have h2 : ((2 : ℚ)) ^ 1024 ≤ |((10 ^ 400 : ℤ) : ℚ)| := by
    rw [abs_of_nonneg (by positivity)]
    push_cast
    norm_num
  exact absurd h1 (not_lt.mpr h2)

/-- C10 amended: `forecast` is not total on all non-empty integer
histories — values so large that a float intermediate leaves double
range raise `OverflowError` (counterexample above) — but it raises no
exception and returns a result on every non-empty history whose values
fit comfortably in double range: whenever each `|x| ≤ 2 ^ 400` and the
history has at most `2 ^ 200` entries, the checked handler returns a
result that agrees with the exact-arithmetic model, with the three
numeric fields integers by the type of `ForecastResponse` and the
request's sku echoed back unchanged. -/
theorem C10_total_within_float_range (sku : String) (hist s : List ℤ)
    (hne : hist ≠ []) (hB : ∀ x ∈ hist, |x| ≤ 2 ^ 400)
    (hlen : hist.length ≤ 2 ^ 200) :
    ∃ r, forecastChecked ⟨sku, hist⟩ s = Except.ok r ∧ r.sku = sku ∧
      forecast ⟨sku, hist⟩ s = some r := by
  refine ⟨forecastCore sku hist, ?_, rfl, forecast_nonempty sku hist s hne⟩
  apply forecastChecked_ok sku hist s hne
  have hBQ : ∀ x ∈ hist, |(x : ℚ)| ≤ 2 ^ 400 := by
    intro x hx
    have hb : ((|x| : ℤ) : ℚ) ≤ ((2 ^ 400 : ℤ) : ℚ) := by exact_mod_cast hB x hx
    rw [Int.cast_abs] at hb
    calc |(x : ℚ)| ≤ ((2 ^ 400 : ℤ) : ℚ) := hb
      _ = 2 ^ 400 := by push_cast; ring
  have hmean : |mean hist| ≤ 2 ^ 400 := abs_mean_le hist _ (by norm_num) hBQ
  have hlenQ : (hist.length : ℚ) ≤ 2 ^ 200 := by exact_mod_cast hlen
  have hterm : ∀ x ∈ hist, ((x : ℚ) - mean hist) ^ 2 ≤ 2 ^ 802 := by
    intro x hx
    have h1 : |(x : ℚ) - mean hist| ≤ 2 ^ 401 := by
      calc |(x : ℚ) - mean hist| ≤ |(x : ℚ)| + |mean hist| := abs_sub _ _
        _ ≤ 2 ^ 400 + 2 ^ 400 := add_le_add (hBQ x hx) hmean
        _ = 2 ^ 401 := by ring
    calc ((x : ℚ) - mean hist) ^ 2 = |(x : ℚ) - mean hist| ^ 2 := (sq_abs _).symm
      _ ≤ (2 ^ 401 : ℚ) ^ 2 := pow_le_pow_left₀ (abs_nonneg _) h1 2
      _ = 2 ^ 802 := by ring
  have hvar : popVariance hist ≤ 2 ^ 802 := popVariance_le hist _ (by norm_num) hterm
  have hsafeUb : safetyStock hist ≤ 2 ^ 401 + 1 := by
    rw [safetyStock]
    refine max_le (by norm_num) ?_
    have hcast : popVariance hist ≤ ((2 ^ 401 : ℕ) : ℚ) ^ 2 := by
      calc popVariance hist ≤ 2 ^ 802 := hvar
        _ = ((2 ^ 401 : ℕ) : ℚ) ^ 2 := by push_cast; ring
    calc sqrtRound (popVariance hist) ≤ ((2 ^ 401 : ℕ) : ℤ) + 1 :=
        sqrtRound_le_of_le_sq (popVariance hist) (popVariance_nonneg hist) (2 ^ 401) hcast
      _ = 2 ^ 401 + 1 := by
        push_cast
        try ring
  have hsafeQ0 : (0 : ℚ) ≤ (safetyStock hist : ℚ) := by
    have h2 := safetyStock_ge_two hist
    exact_mod_cast le_trans (by norm_num) h2
  have hsafeQU : (safetyStock hist : ℚ) ≤ 2 ^ 401 + 1 := by
    calc (safetyStock hist : ℚ) ≤ ((2 ^ 401 + 1 : ℤ) : ℚ) := by exact_mod_cast hsafeUb
      _ = 2 ^ 401 + 1 := by push_cast; ring
  refine ⟨?_, ?_, ?_, ?_, ?_⟩
  · simp only [floatMax]
    calc |mean hist| ≤ 2 ^ 400 := hmean
      _ < 2 ^ 1024 := by norm_num
  · intro x hx
    simp only [floatMax]
    refine ⟨lt_of_le_of_lt (hBQ x hx) (by norm_num), ?_⟩
    rw [abs_of_nonneg (sq_nonneg _)]
    calc ((x : ℚ) - mean hist) ^ 2 ≤ 2 ^ 802 := hterm x hx
      _ < 2 ^ 1024 := by norm_num
  · simp only [floatMax]
    have h0 : (0 : ℚ) ≤ (hist.map fun x : ℤ => ((x : ℚ) - mean hist) ^ 2).sum := by
      apply List.sum_nonneg
      intro y hy
      obtain ⟨x, _, rfl⟩ := List.mem_map.mp hy
      exact sq_nonneg _
    rw [abs_of_nonneg h0]
    calc (hist.map fun x : ℤ => ((x : ℚ) - mean hist) ^ 2).sum
        ≤ (hist.map fun x : ℤ => ((x : ℚ) - mean hist) ^ 2).length • (2 ^ 802 : ℚ) :=
          List.sum_le_card_nsmul _ _ (by
            intro b hb
            obtain ⟨x, hx, rfl⟩ := List.mem_map.mp hb
            exact hterm x hx)
      _ = (hist.length : ℚ) * 2 ^ 802 := by rw [List.length_map, nsmul_eq_mul]
      _ ≤ (2 ^ 200 : ℚ) * 2 ^ 802 := mul_le_mul_of_nonneg_right hlenQ (by norm_num)
      _ < 2 ^ 1024 := by norm_num
  · simp only [floatMax]
    calc |mean hist * 7 + (safetyStock hist : ℚ)|
        ≤ |mean hist * 7| + |(safetyStock hist : ℚ)| := abs_add _ _
      _ = |mean hist| * 7 + (safetyStock hist : ℚ) := by
          rw [abs_mul, abs_of_nonneg hsafeQ0]
          norm_num
      _ ≤ 2 ^ 400 * 7 + (2 ^ 401 + 1) :=
          add_le_add (mul_le_mul_of_nonneg_right hmean (by norm_num)) hsafeQU
      _ < 2 ^ 1024 := by norm_num
  · simp only [floatMax]
    calc |mean hist * 14| = |mean hist| * 14 := by rw [abs_mul]; norm_num
      _ ≤ 2 ^ 400 * 14 := mul_le_mul_of_nonneg_right hmean (by norm_num)
      _ < 2 ^ 1024 := by norm_num

/-- C10 witness: the amended statement at a concrete mixed-sign
history. -/
theorem C10_witness_within_range :
    ∃ r, forecastChecked ⟨"SKU-1", [-3, 8]⟩ [] = Except.ok r ∧ r.sku = "SKU-1" ∧
      forecast ⟨"SKU-1", [-3, 8]⟩ [] = some r :=
  C10_total_within_float_range "SKU-1" [-3, 8] [] (by decide)
    (by
      intro x hx
      simp only [List.mem_cons, List.not_mem_nil, or_false] at hx
      rcases hx with rfl | rfl <;> norm_num)
    (by norm_num)

/-! ### Agreement of the computable rounding with the real-valued one -/

theorem pyRound_eq_roundHalfEven (q : ℚ) : pyRound q = roundHalfEven (q : ℝ) := by
  have hfl : ⌊(q : ℝ)⌋ = ⌊q⌋ := Rat.floor_cast q
  have hsub : (q : ℝ) - ((⌊q⌋ : ℤ) : ℝ) = ((q - (⌊q⌋ : ℚ) : ℚ) : ℝ) := by
    push_cast
    ring
  have hhalf : (1 : ℝ) / 2 = (((1 : ℚ) / 2 : ℚ) : ℝ) := by norm_num
  have hlt1 : ((q : ℝ) - ((⌊q⌋ : ℤ) : ℝ) < 1 / 2) ↔ (q - (⌊q⌋ : ℚ) < 1 / 2) := by
    rw [hsub, hhalf]
    exact Rat.cast_lt
  have hlt2 : ((1 : ℝ) / 2 < (q : ℝ) - ((⌊q⌋ : ℤ) : ℝ)) ↔ ((1 : ℚ) / 2 < q - (⌊q⌋ : ℚ)) := by
    rw [hsub, hhalf]
    exact Rat.cast_lt
  unfold pyRound roundHalfEven
  rw [hfl]
  by_cases h1 : q - (⌊q⌋ : ℚ) < 1 / 2
  · rw [if_pos h1, if_pos (hlt1.mpr h1)]
  · rw [if_neg h1, if_neg (fun h => h1 (hlt1.mp h))]
    by_cases h2 : 1 / 2 < q - (⌊q⌋ : ℚ)
    · rw [if_pos h2, if_pos (hlt2.mpr h2)]
    · rw [if_neg h2, if_neg (fun h => h2 (hlt2.mp h))]

theorem sqrtRound_eq_roundHalfEven_sqrt (v : ℚ) (hv : 0 ≤ v) :
    sqrtRound v = roundHalfEven (Real.sqrt (v : ℝ)) := by
  have hw : (0 : ℝ) ≤ (v : ℝ) := by exact_mod_cast hv
  have hfv : (0 : ℤ) ≤ ⌊v⌋ := Int.floor_nonneg.mpr hv
  set k := Nat.sqrt ⌊v⌋.toNat with hk
  have htn : ((⌊v⌋.toNat : ℤ)) = ⌊v⌋ := Int.toNat_of_nonneg hfv
  have hk2v : ((k : ℚ)) ^ 2 ≤ v := by
    have h1 : k ^ 2 ≤ ⌊v⌋.toNat := Nat.sqrt_le' _
    have h2 : ((⌊v⌋ : ℚ)) ≤ v := Int.floor_le v
    calc ((k : ℚ)) ^ 2 = ((k ^ 2 : ℕ) : ℚ) := by push_cast; ring
      _ ≤ ((⌊v⌋.toNat : ℕ) : ℚ) := by exact_mod_cast h1
      _ = ((⌊v⌋ : ℤ) : ℚ) := by exact_mod_cast htn
      _ ≤ v := h2
  have hvk1 : v < ((k : ℚ) + 1) ^ 2 := by
    have h1 : ⌊v⌋.toNat < (k + 1) ^ 2 := Nat.lt_succ_sqrt' _
    have h4 : v < (⌊v⌋ : ℚ) + 1 := Int.lt_floor_add_one v
    have h5 : ⌊v⌋ + 1 ≤ (((k + 1) ^ 2 : ℕ) : ℤ) := by omega
    calc v < (⌊v⌋ : ℚ) + 1 := h4
      _ ≤ (((k + 1) ^ 2 : ℕ) : ℚ) := by exact_mod_cast h5
      _ = ((k : ℚ) + 1) ^ 2 := by push_cast; ring
  have hsq_lb : (k : ℝ) ≤ Real.sqrt (v : ℝ) := by
    rw [Real.le_sqrt (by positivity) hw]
    exact_mod_cast hk2v
  have hsq_ub : Real.sqrt (v : ℝ) < (k : ℝ) + 1 := by
    rw [Real.sqrt_lt hw (by positivity)]
    exact_mod_cast hvk1
  have hfloor : ⌊Real.sqrt (v : ℝ)⌋ = (k : ℤ) := by
    rw [Int.floor_eq_iff]
    exact ⟨by exact_mod_cast hsq_lb, by exact_mod_cast hsq_ub⟩
  have key1 : (Real.sqrt (v : ℝ) - (k : ℝ) < 1 / 2) ↔ ((v : ℝ) < ((k : ℝ) + 1 / 2) ^ 2) := by
    rw [sub_lt_iff_lt_add']
    exact Real.sqrt_lt hw (by positivity)
  have key2 : ((1 : ℝ) / 2 < Real.sqrt (v : ℝ) - (k : ℝ)) ↔ (((k : ℝ) + 1 / 2) ^ 2 < (v : ℝ)) := by
    rw [lt_sub_iff_add_lt']
    exact Real.lt_sqrt (by positivity)
  have hsq : ((k : ℝ) + 1 / 2) ^ 2 = (((k : ℚ) ^ 2 + (k : ℚ) + 1 / 4 : ℚ) : ℝ) := by
    push_cast
    ring
  have hcast1 : (v < (k : ℚ) ^ 2 + (k : ℚ) + 1 / 4) ↔ ((v : ℝ) < ((k : ℝ) + 1 / 2) ^ 2) := by
    rw [hsq]
    exact Iff.symm Rat.cast_lt
  have hcast2 : ((k : ℚ) ^ 2 + (k : ℚ) + 1 / 4 < v) ↔ (((k : ℝ) + 1 / 2) ^ 2 < (v : ℝ)) := by
    rw [hsq]
    exact Iff.symm Rat.cast_lt
  have hparity : ((k : ℤ) % 2 = 0) ↔ (k % 2 = 0) := by omega
  unfold sqrtRound roundHalfEven
  rw [← hk, hfloor]
  by_cases h1 : v < (k : ℚ) ^ 2 + (k : ℚ) + 1 / 4
  · have h1R : Real.sqrt (v : ℝ) - ((k : ℤ) : ℝ) < 1 / 2 := by
      push_cast
      exact key1.mpr (hcast1.mp h1)
    rw [if_pos h1, if_pos h1R]
  · have h1R : ¬(Real.sqrt (v : ℝ) - ((k : ℤ) : ℝ) < 1 / 2) := by
      push_cast
      intro h
      exact h1 (hcast1.mpr (key1.mp h))
    rw [if_neg h1, if_neg h1R]
    by_cases h2 : (k : ℚ) ^ 2 + (k : ℚ) + 1 / 4 < v
    · have h2R : (1 : ℝ) / 2 < Real.sqrt (v : ℝ) - ((k : ℤ) : ℝ) := by
        push_cast
        exact key2.mpr (hcast2.mp h2)
      rw [if_pos h2, if_pos h2R]
    · have h2R : ¬((1 : ℝ) / 2 < Real.sqrt (v : ℝ) - ((k : ℤ) : ℝ)) := by
        push_cast
        intro h
        exact h2 (hcast2.mpr (key2.mp h))
      rw [if_neg h2, if_neg h2R]
      by_cases h3 : k % 2 = 0
      · rw [if_pos h3, if_pos (hparity.mpr h3)]
      · rw [if_neg h3, if_neg (fun h => h3 (hparity.mp h))]

theorem forecastCore_eq_forecastSpec (sku : String) (hist : List ℤ) :
    forecastCore sku hist = forecastSpec sku hist := by
  have hmean : specMean hist = mean hist := rfl
  have hvar : specVariance hist = popVariance hist := rfl
  have hsafe : safetyStock hist = specSafetyStock hist := by
    rw [safetyStock, specSafetyStock, specStddev, hvar,
      sqrtRound_eq_roundHalfEven_sqrt (popVariance hist) (popVariance_nonneg hist)]
  have harg1 : ((mean hist * 14 : ℚ) : ℝ) = ((specMean hist : ℚ) : ℝ) * 14 := by
    rw [hmean]
    push_cast
    ring
  have harg2 : ((mean hist * 7 + ((specSafetyStock hist : ℤ) : ℚ) : ℚ) : ℝ)
      = ((specMean hist : ℚ) : ℝ) * 7 + ((specSafetyStock hist : ℤ) : ℝ) := by
    rw [hmean]
    push_cast
    ring
  rw [forecastCore, forecastSpec, hsafe, pyRound_eq_roundHalfEven,
    pyRound_eq_roundHalfEven, harg1, harg2]

/-- C5: for every request with a non-empty consumption history (and any
random-generator state), `forecast` returns exactly the result built by
the specification formulas: `avg` the arithmetic mean of the history,
`stddev` the square root of the population variance (the mean of squared
deviations from `avg`), `safety_stock = max(2, round(stddev))`,
`reorder_point = round(avg * lead_time_days + safety_stock)` with
`lead_time_days = 7`, and `recommended_reorder_qty = max(5, round(avg * 14))`,
where `round` is round-half-to-even. -/
theorem C5_matches_spec_formulas (req : ForecastRequest) (s : List ℤ)
    (h : req.last_30d_consumption ≠ []) :
    forecast req s = some (forecastSpec req.sku req.last_30d_consumption) := by
  obtain ⟨sku, hist⟩ := req
  rw [forecast_nonempty sku hist s h, forecastCore_eq_forecastSpec]

/-- C5 witness: the statement at a concrete request. -/
theorem C5_witness :
    forecast ⟨"SKU-1", [2, 4]⟩ (List.replicate 30 2) =
      some (forecastSpec "SKU-1" [2, 4]) :=
  C5_matches_spec_formulas ⟨"SKU-1", [2, 4]⟩ (List.replicate 30 2) (by decide)

end Synapsis
